import Mathlib

/-!
Verification development for the facial-recognition MVP backend.

Shallow embedding of `backend/app/face_processor.py`, `backend/app/main.py`
(enroll/verify aggregation logic) and `backend/app/storage.py`.

Modelling conventions:
* Python floats are modelled as `ℚ` (exact arithmetic); `np.sqrt` inside
  `np.linalg.norm` is modelled by an explicit square-root parameter
  `sq : ℚ → ℚ`, whose defining properties (`sq x * sq x = x`, `0 ≤ sq x`
  at the point used) appear as hypotheses of the theorems that need them.
* `cv2.imdecode` and `DeepFace.represent` are external collaborators; they
  are passed to `process_frame` as explicit function parameters
  (`dec : Bytes → Option Image`, `rep : Image → RepresentResult`), so that
  one execution of the Python function corresponds to one application of
  the Lean function.
* `datetime.utcnow().isoformat()` is passed in as a timestamp string.
* Python f-string float formatting (`:.4f`) is modelled by `toString` on
  `ℚ`; no claim depends on the printed digits of a number.
-/

namespace FaceMVP

/-- An embedding vector (Python: 1-D `np.ndarray` of floats). -/
abbrev Vec := List ℚ

/-- Raw image bytes. -/
abbrev Bytes := List ℕ

/-- The `1e-8` epsilon added to norms in `FaceProcessor._cosine_similarity`. -/
def eps : ℚ := 1 / 100000000

/-- `np.dot` on vectors: sum of pointwise products. -/
def dot (a b : Vec) : ℚ := (List.zipWith (fun x y => x * y) a b).sum

/-- `v / (np.linalg.norm(v) + 1e-8)`, with the norm supplied through the
square-root parameter `sq` applied to `dot v v`. -/
def normalize (sq : ℚ → ℚ) (v : Vec) : Vec :=
  v.map (fun x => x / (sq (dot v v) + eps))

/-- `FaceProcessor._cosine_similarity`, single-vector branch (`b.ndim == 1`):
normalize both vectors, return `np.dot(a_norm, b_norm)`. -/
def cosine_similarity_single (sq : ℚ → ℚ) (a b : Vec) : ℚ :=
  dot (normalize sq a) (normalize sq b)

/-- `FaceProcessor._cosine_similarity`, matrix branch: normalize each row of
`rows` and the query `a`, return the per-row dot products `np.dot(b_norm, a_norm)`,
order-preserving. -/
def cosine_similarity_matrix (sq : ℚ → ℚ) (a : Vec) (rows : List Vec) : List ℚ :=
  rows.map (fun b => dot (normalize sq b) (normalize sq a))

/-- A decoded image; `img.shape[:2]` is `(height, width)`. -/
structure Image where
  height : ℕ
  width : ℕ

/-- One element of the list returned by `DeepFace.represent`: an embedding
plus the `facial_area` fields `x, y, w, h` (the `.get(_, 0)` defaults make
them plain numbers). -/
structure FaceData where
  embedding : Vec
  x : ℕ
  y : ℕ
  w : ℕ
  h : ℕ

/-- Result of calling `DeepFace.represent`: it raises, returns a non-list,
or returns a list of detected faces. -/
inductive RepresentResult where
  | raised (msg : String)
  | notList
  | ok (faces : List FaceData)

/-- The dict built by `FaceProcessor.process_frame`. -/
structure FrameOutcome where
  embedding : Option Vec
  confidence : Option ℚ
  face_area : Option ℕ
  face_ratio : Option ℚ
  pose_label : String
  timestamp : String
  error : Option String
deriving DecidableEq

/-- The initial result dict of `process_frame` (everything `None` except
`pose_label` and `timestamp`). -/
def blankOutcome (pose_label ts : String) : FrameOutcome :=
  { embedding := none, confidence := none, face_area := none, face_ratio := none,
    pose_label := pose_label, timestamp := ts, error := none }

def decodeFailMsg : String := "Failed to decode image"

def tooSmallMsg (width height : ℕ) : String :=
  "Image too small: " ++ toString width ++ "x" ++ toString height ++
    ". Minimum 200x200 required"

def deepfaceFailMsg (e : String) : String := "DeepFace processing failed: " ++ e

def unexpectedFormatMsg : String := "Unexpected DeepFace result format"

def noFaceMsg : String := "No face detected in image"

def multipleFacesMsg (n : ℕ) : String :=
  "Multiple faces detected (" ++ toString n ++ "). Exactly 1 face required"

def faceTooSmallMsg (r : ℚ) : String :=
  "Face too small (ratio: " ++ toString r ++ "). Minimum 0.05 required"

/-- `FaceProcessor.process_frame`: decode, minimum-resolution gate, DeepFace
call, single-face enforcement, face-area ratio gate, then success fields. -/
def process_frame (dec : Bytes → Option Image) (rep : Image → RepresentResult)
    (image_data : Bytes) (pose_label ts : String) : FrameOutcome :=
  let result := blankOutcome pose_label ts
  match dec image_data with
  | none => { result with error := some decodeFailMsg }
  | some img =>
    if img.height < 200 ∨ img.width < 200 then
      { result with error := some (tooSmallMsg img.width img.height) }
    else
      match rep img with
      | .raised e => { result with error := some (deepfaceFailMsg e) }
      | .notList => { result with error := some unexpectedFormatMsg }
      | .ok [] => { result with error := some noFaceMsg }
      | .ok (f1 :: f2 :: rest) =>
        { result with error := some (multipleFacesMsg (f1 :: f2 :: rest).length) }
      | .ok [fd] =>
        let image_area := img.width * img.height
        let face_area := fd.w * fd.h
        let face_ratio : ℚ :=
          if 0 < image_area then (face_area : ℚ) / (image_area : ℚ) else 0
        if face_ratio < 1 / 20 then
          { result with error := some (faceTooSmallMsg face_ratio) }
        else
          { result with
            embedding := some fd.embedding,
            confidence := some face_ratio,
            face_area := some face_area,
            face_ratio := some face_ratio,
            error := none }

/-- `process_frame` with the `if image_area > 0` fallback removed: the ratio
is computed unconditionally. Used to state that the guarded fallback branch
is unreachable. -/
def process_frame_noguard (dec : Bytes → Option Image) (rep : Image → RepresentResult)
    (image_data : Bytes) (pose_label ts : String) : FrameOutcome :=
  let result := blankOutcome pose_label ts
  match dec image_data with
  | none => { result with error := some decodeFailMsg }
  | some img =>
    if img.height < 200 ∨ img.width < 200 then
      { result with error := some (tooSmallMsg img.width img.height) }
    else
      match rep img with
      | .raised e => { result with error := some (deepfaceFailMsg e) }
      | .notList => { result with error := some unexpectedFormatMsg }
      | .ok [] => { result with error := some noFaceMsg }
      | .ok (f1 :: f2 :: rest) =>
        { result with error := some (multipleFacesMsg (f1 :: f2 :: rest).length) }
      | .ok [fd] =>
        let image_area := img.width * img.height
        let face_area := fd.w * fd.h
        let face_ratio : ℚ := (face_area : ℚ) / (image_area : ℚ)
        if face_ratio < 1 / 20 then
          { result with error := some (faceTooSmallMsg face_ratio) }
        else
          { result with
            embedding := some fd.embedding,
            confidence := some face_ratio,
            face_area := some face_area,
            face_ratio := some face_ratio,
            error := none }

def matchMsg (best : ℚ) : String :=
  "Face verified with similarity: " ++ toString best

def noMatchMsg (best threshold : ℚ) : String :=
  "Face not verified. Best similarity: " ++ toString best ++
    " (threshold: " ++ toString threshold ++ ")"

/-- Message produced when `np.max` raises on an empty similarity array and the
outer `except` of `verify_face` catches it. -/
def emptyMaxMsg : String :=
  "Verification error: zero-size array to reduction operation maximum which has no identity"

/-- The threshold default of `FaceProcessor.verify_face` (0.6), also the value
passed explicitly by the `/verify` endpoint. -/
def defaultThreshold : ℚ := 3 / 5

/-- `FaceProcessor.verify_face`: process the frame with pose label
"verification"; on a validator error return a non-match wrapping the error;
otherwise compute the cosine similarities against all stored embeddings,
take `np.max`, and compare with the threshold. -/
def verify_face (sq : ℚ → ℚ) (dec : Bytes → Option Image) (rep : Image → RepresentResult)
    (image_data : Bytes) (ts : String) (stored_embeddings : List Vec)
    (threshold : ℚ) : Bool × ℚ × String :=
  let result := process_frame dec rep image_data "verification" ts
  match result.error with
  | some e => (false, 0, "Face processing failed: " ++ e)
  | none =>
    match result.embedding with
    | none => (false, 0, "Failed to extract embedding")
    | some q =>
      match cosine_similarity_matrix sq q stored_embeddings with
      | [] => (false, 0, emptyMaxMsg)
      | s :: rest =>
        let best := List.foldl max s rest
        let is_match := decide (threshold ≤ best)
        (is_match, best,
          if threshold ≤ best then matchMsg best else noMatchMsg best threshold)

/-- The per-frame metadata dict appended by the `/enroll` loop:
`pose`, `timestamp`, `confidence`, `face_ratio` taken from the frame outcome. -/
structure Meta where
  pose : String
  timestamp : String
  confidence : Option ℚ
  face_ratio : Option ℚ
deriving DecidableEq

/-- The metadata entry built from a successful frame outcome. -/
def metaOf (r : FrameOutcome) : Meta :=
  { pose := r.pose_label, timestamp := r.timestamp,
    confidence := r.confidence, face_ratio := r.face_ratio }

/-- The per-frame error message of the `/enroll` loop:
`f"Frame {idx + 1} ({frame.pose}): {result['error']}"`. -/
def frameErrMsg (idx : ℕ) (pose msg : String) : String :=
  "Frame " ++ toString (idx + 1) ++ " (" ++ pose ++ "): " ++ msg

/-- The frame-processing loop of the `/enroll` endpoint (main.py lines 78-106),
acting on the already-computed frame outcomes paired with their request pose
labels. Returns `(valid_embeddings, valid_metadata, errors)`. -/
def enrollLoop : ℕ → List (String × FrameOutcome) → List Vec × List Meta × List String
  | _, [] => ([], [], [])
  | idx, (pose, r) :: rest =>
    let acc := enrollLoop (idx + 1) rest
    match r.error with
    | some e => (acc.1, acc.2.1, frameErrMsg idx pose e :: acc.2.2)
    | none =>
      match r.embedding with
      | some emb => (emb :: acc.1, metaOf r :: acc.2.1, acc.2.2)
      | none => (acc.1, acc.2.1, acc.2.2)

/-- The `detail` string of the insufficient-embeddings `HTTPException`
(main.py lines 110-112): the valid/total counts followed by at most the
first five per-frame error messages. -/
def insufficientEmbeddingsDetail (valid total : ℕ) (errors : List String) : String :=
  "Insufficient valid embeddings: " ++ toString valid ++ " valid out of " ++
    toString total ++ " frames" ++
    (if errors.isEmpty then ""
     else ". Errors: " ++ String.intercalate "; " (errors.take 5))

def enrolledMsg (n : ℕ) : String :=
  "Successfully enrolled " ++ toString n ++ " face embeddings"

/-- Result of the enrollment aggregation: either an HTTP error response
(no enrollment record is saved) or the success response carrying the record
that is passed to `storage.save_enrollment`. -/
inductive EnrollOutcome where
  | httpError (status : ℕ) (detail : String)
  | success (message : String) (embeddings : List Vec) (metadata : List Meta)
      (errors : List String)
deriving DecidableEq

/-- The aggregation stage of the `/enroll` endpoint (main.py lines 73-128):
run the frame loop, fail with HTTP 400 when fewer than 5 valid embeddings
were collected, otherwise succeed with the collected record. -/
def enrollAggregate (frames : List (String × FrameOutcome)) : EnrollOutcome :=
  let r := enrollLoop 0 frames
  if r.1.length < 5 then
    .httpError 400 (insufficientEmbeddingsDetail r.1.length frames.length r.2.2)
  else
    .success (enrolledMsg r.1.length) r.1 r.2.1 r.2.2

/-- Spec-side characterisation (for the refinement statements of C5): the
embeddings of the outcomes that carry one, in input order. -/
def acceptedEmbeddings (frames : List (String × FrameOutcome)) : List Vec :=
  frames.filterMap (fun fr => fr.2.embedding)

/-- Spec-side characterisation: the frames whose outcome carries an embedding. -/
def acceptedFrames (frames : List (String × FrameOutcome)) : List (String × FrameOutcome) :=
  frames.filter (fun fr => fr.2.embedding.isSome)

/-- Spec-side characterisation: the metadata entries of the accepted frames,
in input order, positionally matching `acceptedEmbeddings`. -/
def acceptedMeta (frames : List (String × FrameOutcome)) : List Meta :=
  (acceptedFrames frames).map (fun fr => metaOf fr.2)

/-- The number of outcomes that carry an embedding. -/
def validCount (frames : List (String × FrameOutcome)) : ℕ :=
  (acceptedFrames frames).length

/-- The `embeddings.npz` artifact: a `[N, D]` float32 matrix under key
`embeddings`, a string `version` and a `timestamp`. -/
structure EmbArtifact where
  embeddings : List Vec
  version : String
  timestamp : String
deriving DecidableEq

/-- The `metadata.json` artifact. -/
structure MetaArtifact where
  version : String
  timestamp : String
  count : ℕ
  frames : List Meta
deriving DecidableEq

/-- The on-disk state of the enrollment store: the two files, each present
or absent. -/
structure StoreState where
  emb : Option EmbArtifact
  meta : Option MetaArtifact
deriving DecidableEq

/-- `np.stack(embeddings, axis=0)`: raises (`none`) on an empty list,
otherwise the `[N, D]` matrix. -/
def stackEmbeddings : List Vec → Option (List Vec)
  | [] => none
  | l => some l

/-- First write of `EnrollmentStorage.save_enrollment`: stack the embeddings
and overwrite `embeddings.npz` (version "1.0", fresh timestamp). `none` when
`np.stack` raises. -/
def writeEmbeddingsFile (embeddings : List Vec) (ts : String) (s : StoreState) :
    Option StoreState :=
  (stackEmbeddings embeddings).map
    (fun arr => { s with emb := some { embeddings := arr, version := "1.0", timestamp := ts } })

/-- Second write of `EnrollmentStorage.save_enrollment`: overwrite
`metadata.json` with version "1.0", its own fresh timestamp, the embedding
count and the metadata list. -/
def writeMetadataFile (embeddings : List Vec) (metadata : List Meta) (ts : String)
    (s : StoreState) : StoreState :=
  { s with meta := some { version := "1.0", timestamp := ts,
                          count := embeddings.length, frames := metadata } }

/-- `EnrollmentStorage.save_enrollment`: the embeddings write followed by the
metadata write; the two timestamps come from two separate
`datetime.utcnow()` calls. -/
def save_enrollment (embeddings : List Vec) (metadata : List Meta)
    (ts1 ts2 : String) (s : StoreState) : Option StoreState :=
  (writeEmbeddingsFile embeddings ts1 s).map (writeMetadataFile embeddings metadata ts2)

/-- `EnrollmentStorage.load_embeddings`: `None` when the file is absent,
otherwise the `embeddings` key of the npz. -/
def load_embeddings (s : StoreState) : Option (List Vec) :=
  s.emb.map (fun a => a.embeddings)

/-- `EnrollmentStorage.load_metadata`. -/
def load_metadata (s : StoreState) : Option MetaArtifact :=
  s.meta

/-- `EnrollmentStorage.is_enrolled`: both files exist. -/
def is_enrolled (s : StoreState) : Bool :=
  s.emb.isSome && s.meta.isSome

/-- `EnrollmentStorage.clear_enrollment`: delete both files. -/
def clear_enrollment (_ : StoreState) : StoreState :=
  { emb := none, meta := none }

theorem dot_cons (x y : ℚ) (a b : Vec) :
    dot (x :: a) (y :: b) = x * y + dot a b := by
  simp [dot]

theorem dot_map_div (d : ℚ) : ∀ a b : Vec,
    dot (a.map (fun x => x / d)) (b.map (fun x => x / d)) = dot a b / (d * d)
  | [], _ => by simp [dot]
  | _ :: _, [] => by simp [dot]
  | x :: a, y :: b => by
    simp only [List.map_cons, dot_cons, dot_map_div d a b]
    rw [div_mul_div_comm, add_div]

theorem foldl_max_eq_or_mem (a : ℚ) (l : List ℚ) :
    List.foldl max a l = a ∨ List.foldl max a l ∈ l := by
  induction l generalizing a with
  | nil => exact Or.inl rfl
  | cons b t ih =>
    rcases ih (max a b) with h | h
    · rcases max_choice a b with hm | hm
      · exact Or.inl (by rw [List.foldl_cons, h, hm])
      · exact Or.inr (by rw [List.foldl_cons, h, hm]; exact List.mem_cons_self ..)
    · exact Or.inr (List.mem_cons_of_mem _ h)

theorem le_foldl_max (a : ℚ) (l : List ℚ) : a ≤ List.foldl max a l := by
  induction l generalizing a with
  | nil => exact le_refl a
  | cons b t ih => exact le_trans (le_max_left a b) (ih (max a b))

theorem mem_le_foldl_max (a x : ℚ) (l : List ℚ) (hx : x ∈ l) :
    x ≤ List.foldl max a l := by
  induction l generalizing a with
  | nil => cases hx
  | cons b t ih =>
    rcases List.mem_cons.mp hx with rfl | h
    · exact le_trans (le_max_right a x) (le_foldl_max _ t)
    · exact ih (max a b) h

theorem process_frame_wf (dec : Bytes → Option Image) (rep : Image → RepresentResult)
    (image_data : Bytes) (pose_label ts : String) :
    ((process_frame dec rep image_data pose_label ts).embedding.isSome ∧
     (process_frame dec rep image_data pose_label ts).error = none) ∨
    ((process_frame dec rep image_data pose_label ts).embedding = none ∧
     (process_frame dec rep image_data pose_label ts).error.isSome) := by
  cases hd : dec image_data with
  | none => simp [process_frame, hd, blankOutcome]
  | some img =>
    by_cases hsize : img.height < 200 ∨ img.width < 200
    · simp [process_frame, hd, hsize, blankOutcome]
    · cases hr : rep img with
      | raised e => simp [process_frame, hd, hsize, hr, blankOutcome]
      | notList => simp [process_frame, hd, hsize, hr, blankOutcome]
      | ok faces =>
        match faces with
        | [] => simp [process_frame, hd, hsize, hr, blankOutcome]
        | [fd] =>
          simp only [process_frame, hd, hr, if_neg hsize]
          split <;> split <;> simp [blankOutcome]
        | f1 :: f2 :: rest => simp [process_frame, hd, hsize, hr, blankOutcome]

theorem enrollLoop_nil (idx : ℕ) : enrollLoop idx [] = ([], [], []) := rfl

theorem enrollLoop_eq (idx : ℕ) (frames : List (String × FrameOutcome))
    (hwf : ∀ fr ∈ frames, fr.2.embedding.isSome → fr.2.error = none) :
    (enrollLoop idx frames).1 = acceptedEmbeddings frames ∧
    (enrollLoop idx frames).2.1 = acceptedMeta frames := by
  induction frames generalizing idx with
  | nil => exact ⟨rfl, rfl⟩
  | cons fr rest ih =>
    obtain ⟨pose, r⟩ := fr
    have hr := hwf (pose, r) (List.mem_cons_self ..)
    obtain ⟨ih1, ih2⟩ :=
      ih (idx + 1) (fun fr hf => hwf fr (List.mem_cons_of_mem _ hf))
    cases he : r.error with
    | some e =>
      have hemb : r.embedding = none := by
        cases hb : r.embedding with
        | none => rfl
        | some v => simp [hb, he] at hr
      simp [enrollLoop, he, hemb, acceptedEmbeddings, acceptedMeta, acceptedFrames,
        List.filterMap_cons, List.filter_cons, ih1, ih2]
    | none =>
      cases hb : r.embedding with
      | some emb =>
        simp [enrollLoop, he, hb, acceptedEmbeddings, acceptedMeta, acceptedFrames,
          List.filterMap_cons, List.filter_cons, ih1, ih2]
      | none =>
        simp [enrollLoop, he, hb, acceptedEmbeddings, acceptedMeta, acceptedFrames,
          List.filterMap_cons, List.filter_cons, ih1, ih2]

theorem acceptedEmbeddings_length (frames : List (String × FrameOutcome)) :
    (acceptedEmbeddings frames).length = validCount frames := by
  induction frames with
  | nil => rfl
  | cons fr rest ih =>
    cases h : fr.2.embedding <;>
      simp [acceptedEmbeddings, validCount, acceptedFrames,
        List.filterMap_cons, List.filter_cons, h, Option.isSome] at ih ⊢ <;>
      omega

theorem acceptedMeta_length (frames : List (String × FrameOutcome)) :
    (acceptedMeta frames).length = validCount frames := by
  simp [acceptedMeta, validCount]

/-- A decode stub returning a 300x300 image. -/
def decBig : Bytes → Option Image := fun _ => some { height := 300, width := 300 }

/-- A decode stub returning a 100x300 image (height below the minimum). -/
def decSmallStub : Bytes → Option Image := fun _ => some { height := 100, width := 300 }

/-- A decode stub failing to decode. -/
def decFail : Bytes → Option Image := fun _ => none

/-- An extractor stub returning one full-frame face with embedding `[1]`. -/
def repOneFace : Image → RepresentResult :=
  fun img => RepresentResult.ok
    [{ embedding := [1], x := 0, y := 0, w := img.width, h := img.height }]

/-- An extractor stub whose call raises. -/
def repBoom : Image → RepresentResult := fun _ => RepresentResult.raised "boom"

/-- C9: Every `FrameOutcome` returned by the frame validator
`FaceProcessor.process_frame` contains exactly one of `embedding` or `error`:
on every error path the embedding field is `None`, and on the success path the
embedding is set and the error field is `None` — never both present, never
both absent. -/
theorem frame_outcome_exactly_one (dec : Bytes → Option Image)
    (rep : Image → RepresentResult) (image_data : Bytes) (pose_label ts : String) :
    ((process_frame dec rep image_data pose_label ts).embedding.isSome ∧
     (process_frame dec rep image_data pose_label ts).error = none) ∨
    ((process_frame dec rep image_data pose_label ts).embedding = none ∧
     (process_frame dec rep image_data pose_label ts).error.isSome) :=
  process_frame_wf dec rep image_data pose_label ts

/-- C8: for every input decoding to an image whose height or width is below
200 pixels, `process_frame` returns the too-small error outcome (with no
embedding), and the result does not depend on the extractor at all — the
extractor is never invoked for that frame. -/
theorem small_image_rejected (dec : Bytes → Option Image)
    (rep₁ rep₂ : Image → RepresentResult) (image_data : Bytes)
    (pose_label ts : String) (img : Image)
    (hdec : dec image_data = some img)
    (hsmall : img.height < 200 ∨ img.width < 200) :
    process_frame dec rep₁ image_data pose_label ts =
      { blankOutcome pose_label ts with
        error := some (tooSmallMsg img.width img.height) } ∧
    process_frame dec rep₁ image_data pose_label ts =
      process_frame dec rep₂ image_data pose_label ts := by
  constructor
  · simp only [process_frame, hdec, if_pos hsmall]
  · simp only [process_frame, hdec, if_pos hsmall]

theorem small_image_rejected_witness :
    process_frame decSmallStub repOneFace [] "front" "t" =
      { blankOutcome "front" "t" with error := some (tooSmallMsg 300 100) } ∧
    process_frame decSmallStub repOneFace [] "front" "t" =
      process_frame decSmallStub repBoom [] "front" "t" :=
  small_image_rejected decSmallStub repOneFace repBoom [] "front" "t"
    { height := 100, width := 300 } rfl (Or.inl (by norm_num))

/-- C10: the division computing `face_ratio` is always well-defined: when it
executes, the minimum-resolution check already guarantees
`image_area = width * height ≥ 40000 > 0`, so the guarded `image_area > 0`
fallback branch is unreachable and `process_frame` coincides with the variant
that divides unconditionally. -/
theorem face_ratio_guard_unreachable (dec : Bytes → Option Image)
    (rep : Image → RepresentResult) (image_data : Bytes) (pose_label ts : String)
    (img : Image) (hdec : dec image_data = some img)
    (hbig : ¬(img.height < 200 ∨ img.width < 200)) :
    40000 ≤ img.width * img.height ∧ 0 < img.width * img.height ∧
    process_frame dec rep image_data pose_label ts =
      process_frame_noguard dec rep image_data pose_label ts := by
  have h1 : 200 ≤ img.height := by omega
  have h2 : 200 ≤ img.width := by omega
  have harea : 40000 ≤ img.width * img.height := by
    calc (40000 : ℕ) = 200 * 200 := rfl
    _ ≤ img.width * img.height := Nat.mul_le_mul h2 h1
  refine ⟨harea, by omega, ?_⟩
  simp only [process_frame, process_frame_noguard, hdec, if_neg hbig]
  cases rep img with
  | raised e => rfl
  | notList => rfl
  | ok faces =>
    match faces with
    | [] => rfl
    | [fd] => simp only [if_pos (show 0 < img.width * img.height by omega)]
    | f1 :: f2 :: rest => rfl

theorem face_ratio_guard_unreachable_witness :
    40000 ≤ 300 * 300 ∧ 0 < 300 * 300 ∧
    process_frame decBig repOneFace [] "front" "t" =
      process_frame_noguard decBig repOneFace [] "front" "t" :=
  face_ratio_guard_unreachable decBig repOneFace [] "front" "t"
    { height := 300, width := 300 } rfl (by norm_num)

/-- C2: whenever the frame validator produces an error outcome (decode
failure, too-small image, no face, multiple faces, face too small, ...),
`verify_face` returns `is_match = false` and `best_similarity = 0.0` with a
message wrapping the validator's error string. The Lean model is a total
function, mirroring the fact that `verify_face` catches every exception and
never lets one propagate to its caller. -/
theorem verify_error_nonmatch (sq : ℚ → ℚ) (dec : Bytes → Option Image)
    (rep : Image → RepresentResult) (image_data : Bytes) (ts : String)
    (stored : List Vec) (threshold : ℚ) (e : String)
    (herr : (process_frame dec rep image_data "verification" ts).error = some e) :
    verify_face sq dec rep image_data ts stored threshold =
      (false, 0, "Face processing failed: " ++ e) := by
  simp only [verify_face, herr]

theorem verify_error_nonmatch_witness :
    verify_face (fun _ => 1) decFail repOneFace [] "t" [[1]] (3 / 5) =
      (false, 0, "Face processing failed: " ++ decodeFailMsg) :=
  verify_error_nonmatch (fun _ => 1) decFail repOneFace [] "t" [[1]] (3 / 5)
    decodeFailMsg rfl

/-- C1: when frame validation succeeds and the stored enrollment matrix is
non-empty, `verify_face` computes the cosine similarity between the extracted
embedding and every stored embedding, its returned `best_similarity` is the
maximum of those similarities (it is one of them and bounds all of them), and
`is_match = true` exactly when `best_similarity ≥ threshold`; the numeric
best similarity is carried in the result even when `is_match` is false. The
`/verify` endpoint instantiates `threshold` with `defaultThreshold = 0.6`. -/
theorem verify_matches_max_similarity (sq : ℚ → ℚ) (dec : Bytes → Option Image)
    (rep : Image → RepresentResult) (image_data : Bytes) (ts : String)
    (threshold q v : _) (rest : List Vec)
    (herr : (process_frame dec rep image_data "verification" ts).error = none)
    (hemb : (process_frame dec rep image_data "verification" ts).embedding = some q) :
    ((verify_face sq dec rep image_data ts (v :: rest) threshold).2.1 ∈
        cosine_similarity_matrix sq q (v :: rest)) ∧
    (∀ x ∈ cosine_similarity_matrix sq q (v :: rest),
        x ≤ (verify_face sq dec rep image_data ts (v :: rest) threshold).2.1) ∧
    ((verify_face sq dec rep image_data ts (v :: rest) threshold).1 = true ↔
        threshold ≤ (verify_face sq dec rep image_data ts (v :: rest) threshold).2.1) := by
  have hv : verify_face sq dec rep image_data ts (v :: rest) threshold =
      (decide (threshold ≤ List.foldl max (dot (normalize sq v) (normalize sq q))
          (rest.map (fun b => dot (normalize sq b) (normalize sq q)))),
        List.foldl max (dot (normalize sq v) (normalize sq q))
          (rest.map (fun b => dot (normalize sq b) (normalize sq q))),
        if threshold ≤ List.foldl max (dot (normalize sq v) (normalize sq q))
            (rest.map (fun b => dot (normalize sq b) (normalize sq q)))
        then matchMsg (List.foldl max (dot (normalize sq v) (normalize sq q))
            (rest.map (fun b => dot (normalize sq b) (normalize sq q))))
        else noMatchMsg (List.foldl max (dot (normalize sq v) (normalize sq q))
            (rest.map (fun b => dot (normalize sq b) (normalize sq q)))) threshold) := by
    simp only [verify_face, herr, hemb, cosine_similarity_matrix, List.map_cons]
  rw [hv]
  simp only [cosine_similarity_matrix, List.map_cons]
  refine ⟨?_, ?_, ?_⟩
  · rcases foldl_max_eq_or_mem (dot (normalize sq v) (normalize sq q))
        (rest.map (fun b => dot (normalize sq b) (normalize sq q))) with h | h
    · rw [h]; exact List.mem_cons_self ..
    · exact List.mem_cons_of_mem _ h
  · intro x hx
    rcases List.mem_cons.mp hx with rfl | h
    · exact le_foldl_max ..
    · exact mem_le_foldl_max _ _ _ h
  · simp [decide_eq_true_iff]

theorem verify_matches_max_similarity_witness :
    ((verify_face (fun _ => 1) decBig repOneFace [] "t" [[1]] defaultThreshold).2.1 ∈
        cosine_similarity_matrix (fun _ => 1) [1] [[1]]) ∧
    (∀ x ∈ cosine_similarity_matrix (fun _ => 1) [1] [[1]],
        x ≤ (verify_face (fun _ => 1) decBig repOneFace [] "t" [[1]] defaultThreshold).2.1) ∧
    ((verify_face (fun _ => 1) decBig repOneFace [] "t" [[1]] defaultThreshold).1 = true ↔
        defaultThreshold ≤
          (verify_face (fun _ => 1) decBig repOneFace [] "t" [[1]] defaultThreshold).2.1) :=
  verify_matches_max_similarity (fun _ => 1) decBig repOneFace [] "t"
    defaultThreshold [1] [1] []
    (by norm_num [process_frame, decBig, repOneFace])
    (by norm_num [process_frame, decBig, repOneFace])

/-- A square-root stub that is exact at `0` (as `np.sqrt` is): used to
evaluate the cosine similarity of the all-zero vector. -/
def sqrtStub : ℚ → ℚ := fun _ => 0

/-- A square-root function that is exact at `25`: used to evaluate the cosine
similarity of `[3, 4]` with itself. -/
def sqrt25 : ℚ → ℚ := fun x => if x = 25 then 5 else 0

/-- C3 counterexample: for the all-zero vector `v = [0, 0, 0]` the code
returns `cosine_similarity(v, v) = 0`, not `1.0` — the `1e-8` epsilon
prevents the division by zero but makes the result `0/(1e-8)² = 0`, which is
not within any reasonable float epsilon of `1.0`. (`sqrtStub` agrees with
`np.sqrt` at the only point where it is consulted: `‖v‖ = 0`.) -/
theorem cosine_self_not_one_at_zero :
    dot [0, 0, 0] [0, 0, 0] = 0 ∧
    sqrtStub (dot [0, 0, 0] [0, 0, 0]) = 0 ∧
    cosine_similarity_single sqrtStub [0, 0, 0] [0, 0, 0] = 0 ∧
    ¬|cosine_similarity_single sqrtStub [0, 0, 0] [0, 0, 0] - 1| ≤ 1 / 1000 := by
  refine ⟨by norm_num [dot], rfl, ?_, ?_⟩ <;>
    norm_num [cosine_similarity_single, normalize, dot, sqrtStub, eps]

/-- C3 amended: for every vector `v` (with the square-root parameter exact
and nonnegative at `dot v v`), the normalizing denominator `‖v‖ + 1e-8` is
strictly positive, so the computation never divides by zero;
`cosine_similarity(v, v) = ⟨v,v⟩ / (‖v‖ + 1e-8)²`, which equals `0` — not
`1.0` — when `v` is all-zero, and is within `2·1e-8` of `1.0` whenever
`‖v‖ ≥ 1` (the case for real embeddings). -/
theorem cosine_self_near_one (sq : ℚ → ℚ) (v : Vec)
    (hsq : sq (dot v v) * sq (dot v v) = dot v v)
    (hpos : 0 ≤ sq (dot v v)) :
    0 < sq (dot v v) + eps ∧
    cosine_similarity_single sq v v =
      dot v v / ((sq (dot v v) + eps) * (sq (dot v v) + eps)) ∧
    (dot v v = 0 → cosine_similarity_single sq v v = 0) ∧
    (1 ≤ sq (dot v v) → |cosine_similarity_single sq v v - 1| ≤ 2 * eps) := by
  have heps : (0 : ℚ) < eps := by norm_num [eps]
  have hd : 0 < sq (dot v v) + eps := by linarith
  have hcos : cosine_similarity_single sq v v =
      dot v v / ((sq (dot v v) + eps) * (sq (dot v v) + eps)) := by
    unfold cosine_similarity_single normalize
    exact dot_map_div _ v v
  refine ⟨hd, hcos, ?_, ?_⟩
  · intro h0
    rw [hcos, h0, zero_div]
  · intro h1
    set r := sq (dot v v) with hrdef
    have hr0 : 0 ≤ r := hpos
    have hrr : r ≤ r * r := le_mul_of_one_le_left hr0 h1
    have hD : 0 < (r + eps) * (r + eps) := by positivity
    have hcos2 : cosine_similarity_single sq v v = r * r / ((r + eps) * (r + eps)) := by
      rw [hcos, ← hsq]
    have hle : r * r / ((r + eps) * (r + eps)) ≤ 1 := by
      rw [div_le_one hD]
      nlinarith [mul_nonneg hr0 heps.le, mul_pos heps heps]
    have hge : 1 - 2 * eps ≤ r * r / ((r + eps) * (r + eps)) := by
      rw [le_div_iff₀ hD, show eps = 1 / 100000000 from rfl]
      nlinarith [hrr, h1]
    rw [hcos2, abs_le]
    constructor <;> linarith

theorem cosine_self_near_one_witness :
    0 < sqrt25 (dot [3, 4] [3, 4]) + eps ∧
    cosine_similarity_single sqrt25 [3, 4] [3, 4] =
      dot [3, 4] [3, 4] /
        ((sqrt25 (dot [3, 4] [3, 4]) + eps) * (sqrt25 (dot [3, 4] [3, 4]) + eps)) ∧
    (dot [3, 4] [3, 4] = 0 → cosine_similarity_single sqrt25 [3, 4] [3, 4] = 0) ∧
    (1 ≤ sqrt25 (dot [3, 4] [3, 4]) →
      |cosine_similarity_single sqrt25 [3, 4] [3, 4] - 1| ≤ 2 * eps) :=
  cosine_self_near_one sqrt25 [3, 4]
    (by norm_num [sqrt25, dot]) (by norm_num [sqrt25, dot])

/-- C4: for every sequence of frame outcomes (satisfying the exactly-one
invariant every `process_frame` outcome has) in which fewer than 5 outcomes
carry an embedding, the enrollment aggregation fails with the HTTP 400
insufficient-embeddings error whose detail reports the valid count out of the
total frame count and includes at most the first 5 per-frame error messages
(see `insufficientEmbeddingsDetail`), and never returns the success outcome —
hence no enrollment record is passed to `save_enrollment`. -/
theorem insufficient_embeddings_fails (frames : List (String × FrameOutcome))
    (hwf : ∀ fr ∈ frames, fr.2.embedding.isSome → fr.2.error = none)
    (hcount : validCount frames < 5) :
    enrollAggregate frames =
      .httpError 400 (insufficientEmbeddingsDetail (validCount frames)
        frames.length (enrollLoop 0 frames).2.2) ∧
    ∀ m es ms er, enrollAggregate frames ≠ .success m es ms er := by
  obtain ⟨h1, _⟩ := enrollLoop_eq 0 frames hwf
  have hlen : (enrollLoop 0 frames).1.length = validCount frames := by
    rw [h1, acceptedEmbeddings_length]
  have heq : enrollAggregate frames =
      .httpError 400 (insufficientEmbeddingsDetail (validCount frames)
        frames.length (enrollLoop 0 frames).2.2) := by
    simp only [enrollAggregate, hlen]
    rw [if_pos hcount]
  exact ⟨heq, fun m es ms er h => by rw [heq] at h; cases h⟩

/-- An accepted enrollment outcome (full-frame face, embedding `[1]`). -/
def okOutcome (p : String) : FrameOutcome :=
  { embedding := some [1], confidence := some 1, face_area := some 90000,
    face_ratio := some 1, pose_label := p, timestamp := "t", error := none }

/-- A rejected enrollment outcome (no face found). -/
def errOutcome (p : String) : FrameOutcome :=
  { blankOutcome p "t" with error := some noFaceMsg }

/-- Seven outcomes of which exactly four carry an embedding. -/
def sevenFrames : List (String × FrameOutcome) :=
  [("front", okOutcome "front"), ("left", okOutcome "left"),
   ("right", okOutcome "right"), ("up", okOutcome "up"),
   ("down", errOutcome "down"), ("tilt", errOutcome "tilt"),
   ("back", errOutcome "back")]

theorem insufficient_embeddings_fails_witness :
    enrollAggregate sevenFrames =
      .httpError 400 (insufficientEmbeddingsDetail (validCount sevenFrames)
        sevenFrames.length (enrollLoop 0 sevenFrames).2.2) ∧
    ∀ m es ms er, enrollAggregate sevenFrames ≠ .success m es ms er :=
  insufficient_embeddings_fails sevenFrames (by decide) (by decide)

/-- C5: for every sequence of frame outcomes (satisfying the exactly-one
invariant) with at least 5 outcomes carrying an embedding, aggregation
succeeds with a record containing exactly the accepted embeddings in input
order, each paired 1:1 by position with the metadata of the same accepted
frame (`acceptedMeta` maps `metaOf` over the same filtered list), with no
deduplication or outlier removal, and
`len(embeddings) = len(metadata) = validCount`. -/
theorem sufficient_embeddings_succeeds (frames : List (String × FrameOutcome))
    (hwf : ∀ fr ∈ frames, fr.2.embedding.isSome → fr.2.error = none)
    (hcount : 5 ≤ validCount frames) :
    enrollAggregate frames =
      .success (enrolledMsg (validCount frames)) (acceptedEmbeddings frames)
        (acceptedMeta frames) (enrollLoop 0 frames).2.2 ∧
    (acceptedEmbeddings frames).length = validCount frames ∧
    (acceptedMeta frames).length = validCount frames := by
  obtain ⟨h1, h2⟩ := enrollLoop_eq 0 frames hwf
  have hlen : (enrollLoop 0 frames).1.length = validCount frames := by
    rw [h1, acceptedEmbeddings_length]
  refine ⟨?_, acceptedEmbeddings_length frames, acceptedMeta_length frames⟩
  simp only [enrollAggregate, h1, h2, acceptedEmbeddings_length]
  rw [if_neg (by omega)]

/-- Five outcomes, all carrying an embedding. -/
def fiveFrames : List (String × FrameOutcome) :=
  [("front", okOutcome "front"), ("left", okOutcome "left"),
   ("right", okOutcome "right"), ("up", okOutcome "up"),
   ("down", okOutcome "down")]

theorem sufficient_embeddings_succeeds_witness :
    enrollAggregate fiveFrames =
      .success (enrolledMsg (validCount fiveFrames)) (acceptedEmbeddings fiveFrames)
        (acceptedMeta fiveFrames) (enrollLoop 0 fiveFrames).2.2 ∧
    (acceptedEmbeddings fiveFrames).length = validCount fiveFrames ∧
    (acceptedMeta fiveFrames).length = validCount fiveFrames :=
  sufficient_embeddings_succeeds fiveFrames (by decide) (by decide)

/-- The metadata artifact of a pre-existing one-embedding enrollment. -/
def oldMetaArtifact : MetaArtifact :=
  { version := "1.0", timestamp := "t0", count := 1,
    frames := [{ pose := "front", timestamp := "t0",
                 confidence := some 1, face_ratio := some 1 }] }

/-- A store already holding a one-embedding enrollment. -/
def oldStore : StoreState :=
  { emb := some { embeddings := [[1]], version := "1.0", timestamp := "t0" },
    meta := some oldMetaArtifact }

/-- The embeddings of a new two-embedding enrollment being saved. -/
def newEmbs : List Vec := [[2], [3]]

/-- The metadata of the new enrollment. -/
def newMeta : List Meta :=
  [{ pose := "front", timestamp := "t1", confidence := some 1, face_ratio := some 1 },
   { pose := "left", timestamp := "t1", confidence := some 1, face_ratio := some 1 }]

/-- The store state after the first of the two writes of `save_enrollment`. -/
def midStore : StoreState :=
  { emb := some { embeddings := newEmbs, version := "1.0", timestamp := "t1" },
    meta := some oldMetaArtifact }

/-- C6 (refuted — the code is not atomic): `save_enrollment` is exactly the
sequence of two independent writes (`embeddings.npz` first, `metadata.json`
second) with nothing coupling them; interrupting a save of a two-embedding
record over an existing one-embedding enrollment after the first write leaves
the store holding the new embeddings next to the old metadata (`count = 1`
vs `2` embeddings), and both artifacts carry the constant version `"1.0"`, so
the partial write is not detectable by a version stamp. -/
theorem save_not_atomic :
    save_enrollment newEmbs newMeta "t1" "t2" oldStore =
      (writeEmbeddingsFile newEmbs "t1" oldStore).map
        (writeMetadataFile newEmbs newMeta "t2") ∧
    writeEmbeddingsFile newEmbs "t1" oldStore = some midStore ∧
    load_embeddings midStore = some newEmbs ∧
    load_metadata midStore = some oldMetaArtifact ∧
    oldMetaArtifact.count ≠ newEmbs.length ∧
    (midStore.emb.map (fun a => a.version) = some "1.0" ∧
     midStore.meta.map (fun a => a.version) = some "1.0") :=
  ⟨rfl, rfl, rfl, rfl, by decide, rfl, rfl⟩

/-- C7: saving an enrollment of `N ≥ 1` embeddings with matching metadata and
then loading reproduces the same `N` vectors with the same values in the same
order, and the same per-frame metadata in the same order (the model carries
exact values; the code stores float32, hence "within float32 precision"). -/
theorem save_load_roundtrip (embeddings : List Vec) (metadata : List Meta)
    (ts1 ts2 : String) (s : StoreState) (hne : embeddings ≠ []) :
    ∃ s', save_enrollment embeddings metadata ts1 ts2 s = some s' ∧
      load_embeddings s' = some embeddings ∧
      load_metadata s' = some ⟨"1.0", ts2, embeddings.length, metadata⟩ := by
  match embeddings, hne with
  | e :: rest, _ => exact ⟨_, rfl, rfl, rfl⟩

theorem save_load_roundtrip_witness :
    ∃ s', save_enrollment [[1], [2]] newMeta "t1" "t2"
        { emb := none, meta := none } = some s' ∧
      load_embeddings s' = some [[1], [2]] ∧
      load_metadata s' = some ⟨"1.0", "t2", [[1], [2]].length, newMeta⟩ :=
  save_load_roundtrip [[1], [2]] newMeta "t1" "t2"
    { emb := none, meta := none } (List.cons_ne_nil _ _)

end FaceMVP
